import Mathlib

/-!
Shallow embedding of the fog-ai real-time ingestion → windowed aggregation →
scoring pipeline (`src/fog_node/`): feature extraction, the capture queue,
the anomaly detector's predict/score front end, and the agent state machine.

Time is modelled as integers (seconds); all arithmetic the Python code does
in floats is modelled exactly over `ℚ`.  `np.std` (an irrational square root)
is kept symbolic via `FeatVal.sqrt`.
-/

deriving instance DecidableEq for Except

namespace FogAI

/-- A scalar Python value occurring as a protocol field value in this
repository: tshark JSON carries strings, the simulated capture carries ints. -/
inductive PyScalar where
  | pStr (s : String)
  | pInt (n : Int)
deriving DecidableEq

/-- A Python value stored under a field name inside one protocol layer.
This repository's producers (`traffic_capture._process_packet`, the
simulator) and the claims only involve scalars, lists of scalars, dicts
(whose contents the extraction code never reads — only `isinstance` checks
and truthiness are applied to them) and `None`. -/
inductive FieldVal where
  | scalar (v : PyScalar)
  | list (xs : List PyScalar)
  | dict (nonempty : Bool)
  | none
deriving DecidableEq

/-- The value stored under a protocol name in a packet's `layers` mapping:
either a dict of fields, or some non-dict value (which every
`isinstance(layer, dict)` guard in `feature_extraction.py` skips). -/
inductive LayerVal where
  | ldict (fields : List (String × FieldVal))
  | nondict
deriving DecidableEq

abbrev Fields := List (String × FieldVal)
abbrev Layers := List (String × LayerVal)

/-- `d.get(k)` on a Python dict represented as an association list. -/
def dictGet {β : Type} (d : List (String × β)) (k : String) : Option β :=
  match d with
  | [] => Option.none
  | (k', v) :: rest => if k' = k then Option.some v else dictGet rest k

/-- One retained packet record: `feature_extraction.add_packets` stores the
parsed timestamp and the `layers` mapping. -/
structure Packet where
  capturedAt : Int
  layers : Layers
deriving DecidableEq

/-- Value of a decimal digit string, `Option.none` if empty or non-digits. -/
def digitsVal (cs : List Char) : Option Nat :=
  if cs.isEmpty || !(cs.all Char.isDigit) then Option.none
  else Option.some (cs.foldl (fun a c => 10 * a + (c.toNat - 48)) 0)

/-- Python `int(s)` on the decimal strings relevant here: an optional sign
followed by digits; anything else raises (modelled as `Option.none`). -/
def parseIntStr (s : String) : Option Int :=
  match s.data with
  | '-' :: rest => (digitsVal rest).map (fun n => -(n : Int))
  | '+' :: rest => (digitsVal rest).map (fun n => (n : Int))
  | cs => (digitsVal cs).map (fun n => (n : Int))

/-- Python `int(x)` for `x` an int or a str (the `isinstance(x, (int, str))`
branch); `Option.none` models the conversion raising. -/
def pyIntOfScalar (v : PyScalar) : Option Int :=
  match v with
  | PyScalar.pInt n => Option.some n
  | PyScalar.pStr s => parseIntStr s

/-- Python truthiness of a field value (`if src_ip and dst_ip`). -/
def truthy (v : FieldVal) : Bool :=
  match v with
  | FieldVal.scalar (PyScalar.pStr s) => s ≠ ""
  | FieldVal.scalar (PyScalar.pInt n) => n ≠ 0
  | FieldVal.list xs => !xs.isEmpty
  | FieldVal.dict ne => ne
  | FieldVal.none => false

/-- `extract_features` lines 64-67: keep records with
`p['timestamp'] >= now - window_size`. -/
def windowPackets (buf : List Packet) (now win : Int) : List Packet :=
  buf.filter (fun p => now - win ≤ p.capturedAt)

/-- Protocol class of one record. -/
inductive Proto where
  | tcp
  | udp
  | icmp
  | other
deriving DecidableEq

/-- Whether the record's `layers` dict has the given protocol key
(`'tcp' in layers`). -/
def hasLayer (p : Packet) (k : String) : Bool :=
  (dictGet p.layers k).isSome

/-- `extract_features` lines 86-93: classification by layer-key presence,
tcp before udp before icmp, else other. -/
def classify (p : Packet) : Proto :=
  if hasLayer p "tcp" then Proto.tcp
  else if hasLayer p "udp" then Proto.udp
  else if hasLayer p "icmp" then Proto.icmp
  else Proto.other

def protoCount (ps : List Packet) (pr : Proto) : Nat :=
  (ps.filter (fun p => classify p = pr)).length

/-- `sum(protocol_counts.values())` (`extract_features` line 112). -/
def totalProto (ps : List Packet) : Nat :=
  protoCount ps Proto.tcp + protoCount ps Proto.udp +
    protoCount ps Proto.icmp + protoCount ps Proto.other

/-- Bytes one record adds to `total_bytes` (`extract_features` lines 95-106):
the list branch reassigns `ip_len` but falls through without adding, so a
list-valued field contributes 0; only the `isinstance(ip_len, (int, str))`
branch adds, and a failing `int()` is swallowed by the bare `except`. -/
def packetBytes (p : Packet) : Int :=
  match dictGet p.layers "ip" with
  | Option.some (LayerVal.ldict ip) =>
    match dictGet ip "ip_len" with
    | Option.some (FieldVal.scalar v) => (pyIntOfScalar v).getD 0
    | _ => 0
  | _ => 0

def totalBytes (ps : List Packet) : Int :=
  ps.foldl (fun a p => a + packetBytes p) 0

/-- The size `_extract_size_features` (lines 235-247) appends for one record:
only the `isinstance(ip_len, (int, str))` branch with a successful `int()`
appends; the list branch reassigns `ip_len` and appends nothing. -/
def packetSize (p : Packet) : Option Int :=
  match dictGet p.layers "ip" with
  | Option.some (LayerVal.ldict ip) =>
    match dictGet ip "ip_len" with
    | Option.some (FieldVal.scalar v) => pyIntOfScalar v
    | _ => Option.none
  | _ => Option.none

def packetSizes (ps : List Packet) : List Int :=
  ps.filterMap packetSize

/-- The repeated access pattern
`layer.get(k, [''])[0] if isinstance(layer.get(k), list) else layer.get(k, '')`
(`feature_extraction.py` lines 159-171 and 212-213).  When the key is present
and its value is an empty list, the `[0]` raises IndexError. -/
def getField (layer : Fields) (key : String) : Except String FieldVal :=
  match dictGet layer key with
  | Option.some (FieldVal.list []) => Except.error "IndexError"
  | Option.some (FieldVal.list (x :: _)) => Except.ok (FieldVal.scalar x)
  | Option.some v => Except.ok v
  | Option.none => Except.ok (FieldVal.scalar (PyScalar.pStr ""))

/-- A flow key component that stayed Python `None` is `Option.none`. -/
abbrev FlowKey := FieldVal × FieldVal × Option FieldVal × Option FieldVal

/-- `_extract_flow_features` lines 151-174: compute the flow key of one
record, `Option.none` when `src_ip and dst_ip` is falsy (the record is
excluded from flow grouping). -/
def flowKeyOf (p : Packet) : Except String (Option FlowKey) := do
  let src? ← match dictGet p.layers "ip" with
    | Option.some (LayerVal.ldict ip) => do
        let s ← getField ip "ip_src"
        pure (Option.some s)
    | _ => pure Option.none
  let dst? ← match dictGet p.layers "ip" with
    | Option.some (LayerVal.ldict ip) => do
        let d ← getField ip "ip_dst"
        pure (Option.some d)
    | _ => pure Option.none
  let ports ← match dictGet p.layers "tcp" with
    | Option.some (LayerVal.ldict tcp) => do
        let sp ← getField tcp "tcp_srcport"
        let dp ← getField tcp "tcp_dstport"
        pure (Option.some sp, Option.some dp)
    | Option.some LayerVal.nondict => pure (Option.none, Option.none)
    | Option.none =>
      match dictGet p.layers "udp" with
      | Option.some (LayerVal.ldict udp) => do
          let sp ← getField udp "udp_srcport"
          let dp ← getField udp "udp_dstport"
          pure (Option.some sp, Option.some dp)
      | _ => pure (Option.none, Option.none)
  match src?, dst? with
  | Option.some s, Option.some d =>
    if truthy s && truthy d then pure (Option.some (s, d, ports.1, ports.2))
    else pure Option.none
  | _, _ => pure Option.none

/-- Per-flow accumulator (`_extract_flow_features` lines 140-144). -/
structure FlowAcc where
  packets : List Packet
  startT : Int
  endT : Int
deriving DecidableEq

/-- Insert one record into the flow table, preserving dict insertion order
(`_extract_flow_features` lines 173-178). -/
def flowInsert (flows : List (FlowKey × FlowAcc)) (k : FlowKey) (p : Packet) :
    List (FlowKey × FlowAcc) :=
  match flows with
  | [] => [(k, { packets := [p], startT := p.capturedAt, endT := p.capturedAt })]
  | (k', a) :: rest =>
    if k' = k then
      (k', { a with packets := a.packets ++ [p], endT := p.capturedAt }) :: rest
    else (k', a) :: flowInsert rest k p

def buildFlows (ps : List Packet) : Except String (List (FlowKey × FlowAcc)) :=
  ps.foldlM
    (fun flows p => do
      let k? ← flowKeyOf p
      match k? with
      | Option.some k => pure (flowInsert flows k p)
      | Option.none => pure flows)
    []

/-- One feature value: a rational, or the nonnegative square root of a
rational (`np.std`, kept symbolic). -/
inductive FeatVal where
  | q (x : ℚ)
  | sqrt (x : ℚ)
deriving DecidableEq

def listMinInt : List Int → Int
  | [] => 0
  | x :: xs => xs.foldl min x

def listMaxInt : List Int → Int
  | [] => 0
  | x :: xs => xs.foldl max x

def listMaxNat : List Nat → Nat
  | [] => 0
  | x :: xs => xs.foldl max x

/-- `np.mean` over integers, exactly. -/
def listMeanInt (l : List Int) : ℚ :=
  (l.sum : ℚ) / (l.length : ℚ)

def listMeanNat (l : List Nat) : ℚ :=
  ((l.sum : ℚ)) / (l.length : ℚ)

/-- The (population) variance behind `np.std`. -/
def listVariance (l : List Int) : ℚ :=
  ((l.map (fun x => ((x : ℚ) - listMeanInt l) ^ 2)).sum) / (l.length : ℚ)

/-- `extract_features` lines 75-109: packet count/rate, byte total/rate. -/
def basicFeatures (ps : List Packet) (win : Int) : List (String × FeatVal) :=
  [("packet_count", FeatVal.q (ps.length : ℚ)),
   ("packet_rate", FeatVal.q ((ps.length : ℚ) / (win : ℚ))),
   ("total_bytes", FeatVal.q (totalBytes ps : ℚ)),
   ("byte_rate", FeatVal.q (if 0 < win then (totalBytes ps : ℚ) / (win : ℚ) else 0))]

/-- `extract_features` lines 111-122: protocol ratios. -/
def ratioFeatures (ps : List Packet) : List (String × FeatVal) :=
  if 0 < totalProto ps then
    [("tcp_ratio", FeatVal.q ((protoCount ps Proto.tcp : ℚ) / (totalProto ps : ℚ))),
     ("udp_ratio", FeatVal.q ((protoCount ps Proto.udp : ℚ) / (totalProto ps : ℚ))),
     ("icmp_ratio", FeatVal.q ((protoCount ps Proto.icmp : ℚ) / (totalProto ps : ℚ))),
     ("other_ratio", FeatVal.q ((protoCount ps Proto.other : ℚ) / (totalProto ps : ℚ)))]
  else
    [("tcp_ratio", FeatVal.q 0), ("udp_ratio", FeatVal.q 0),
     ("icmp_ratio", FeatVal.q 0), ("other_ratio", FeatVal.q 0)]

/-- `_extract_flow_features` lines 180-198.  (`start_time`/`end_time` are
datetimes, hence always truthy, so every flow enters the statistics.) -/
def flowFeatures (ps : List Packet) : Except String (List (String × FeatVal)) := do
  let flows ← buildFlows ps
  let durations := flows.map (fun fa => fa.2.endT - fa.2.startT)
  let counts := flows.map (fun fa => fa.2.packets.length)
  pure
    [("num_flows", FeatVal.q (flows.length : ℚ)),
     ("avg_flow_duration", FeatVal.q (if durations = [] then 0 else listMeanInt durations)),
     ("max_flow_duration", FeatVal.q (if durations = [] then 0 else (listMaxInt durations : ℚ))),
     ("avg_packets_per_flow", FeatVal.q (if counts = [] then 0 else listMeanNat counts)),
     ("max_packets_per_flow", FeatVal.q (if counts = [] then 0 else (listMaxNat counts : ℚ)))]

/-- Add to a Python-set model (list of distinct elements). -/
def setInsert {α : Type} [DecidableEq α] (s : List α) (x : α) : List α :=
  if x ∈ s then s else s ++ [x]

/-- `_extract_connection_features` lines 206-220: per-record update of the
source / destination / connection sets. -/
def connStep (acc : List FieldVal × List FieldVal × List (FieldVal × FieldVal))
    (p : Packet) :
    Except String (List FieldVal × List FieldVal × List (FieldVal × FieldVal)) :=
  match dictGet p.layers "ip" with
  | Option.some (LayerVal.ldict ip) => do
    let s ← getField ip "ip_src"
    let d ← getField ip "ip_dst"
    let srcs := if truthy s then setInsert acc.1 s else acc.1
    let dsts := if truthy d then setInsert acc.2.1 d else acc.2.1
    let conns := if truthy s && truthy d then setInsert acc.2.2 (s, d) else acc.2.2
    pure (srcs, dsts, conns)
  | _ => pure acc

/-- `_extract_connection_features` lines 200-229. -/
def connectionFeatures (ps : List Packet) : Except String (List (String × FeatVal)) := do
  let acc ← ps.foldlM connStep ([], [], [])
  pure
    [("unique_sources", FeatVal.q (acc.1.length : ℚ)),
     ("unique_destinations", FeatVal.q (acc.2.1.length : ℚ)),
     ("unique_connections", FeatVal.q (acc.2.2.length : ℚ)),
     ("connection_diversity",
       FeatVal.q ((acc.2.2.length : ℚ) / (max (acc.1.length * acc.2.1.length) 1 : ℚ)))]

/-- `_extract_size_features` lines 231-264. -/
def sizeFeatures (ps : List Packet) : List (String × FeatVal) :=
  let sizes := packetSizes ps
  if sizes = [] then
    [("avg_packet_size", FeatVal.q 0), ("min_packet_size", FeatVal.q 0),
     ("max_packet_size", FeatVal.q 0), ("std_packet_size", FeatVal.q 0)]
  else
    [("avg_packet_size", FeatVal.q (listMeanInt sizes)),
     ("min_packet_size", FeatVal.q (listMinInt sizes : ℚ)),
     ("max_packet_size", FeatVal.q (listMaxInt sizes : ℚ)),
     ("std_packet_size", FeatVal.sqrt (listVariance sizes))]

/-- `_get_default_features` lines 266-290: the all-zero feature map. -/
def defaultFeatures : List (String × FeatVal) :=
  [("packet_count", FeatVal.q 0), ("packet_rate", FeatVal.q 0),
   ("total_bytes", FeatVal.q 0), ("byte_rate", FeatVal.q 0),
   ("tcp_ratio", FeatVal.q 0), ("udp_ratio", FeatVal.q 0),
   ("icmp_ratio", FeatVal.q 0), ("other_ratio", FeatVal.q 0),
   ("num_flows", FeatVal.q 0), ("avg_flow_duration", FeatVal.q 0),
   ("max_flow_duration", FeatVal.q 0), ("avg_packets_per_flow", FeatVal.q 0),
   ("max_packets_per_flow", FeatVal.q 0), ("unique_sources", FeatVal.q 0),
   ("unique_destinations", FeatVal.q 0), ("unique_connections", FeatVal.q 0),
   ("connection_diversity", FeatVal.q 0), ("avg_packet_size", FeatVal.q 0),
   ("min_packet_size", FeatVal.q 0), ("max_packet_size", FeatVal.q 0),
   ("std_packet_size", FeatVal.q 0)]

/-- `get_feature_vector` lines 302-324: the fixed feature order. -/
def featureOrder : List String :=
  ["packet_count", "packet_rate", "total_bytes", "byte_rate",
   "tcp_ratio", "udp_ratio", "icmp_ratio", "other_ratio",
   "num_flows", "avg_flow_duration", "max_flow_duration",
   "avg_packets_per_flow", "max_packets_per_flow",
   "unique_sources", "unique_destinations", "unique_connections",
   "connection_diversity", "avg_packet_size", "min_packet_size",
   "max_packet_size", "std_packet_size"]

/-- `extract_features` lines 50-136, as a pure function of the retained
buffer, the current time and the window length.  An uncaught Python
exception is `Except.error`; `win = 0` would make line 76 raise
ZeroDivisionError. -/
def extract_features (buf : List Packet) (now win : Int) :
    Except String (List (String × FeatVal)) :=
  if buf = [] then Except.ok defaultFeatures
  else
    let ps := windowPackets buf now win
    if ps = [] then Except.ok defaultFeatures
    else if win = 0 then Except.error "ZeroDivisionError"
    else do
      let ff ← flowFeatures ps
      let cf ← connectionFeatures ps
      pure (basicFeatures ps win ++ ratioFeatures ps ++ ff ++ cf ++ sizeFeatures ps)

/-- `get_feature_vector` lines 292-326: `features.get(key, 0)` in the fixed
order. -/
def get_feature_vector (buf : List Packet) (now win : Int) :
    Except String (List FeatVal) :=
  (extract_features buf now win).map
    (fun m => featureOrder.map (fun k => (dictGet m k).getD (FeatVal.q 0)))

/-! ## Ingestion buffer (`traffic_capture.py`)

`_process_packet` lines 126-135 and `_simulate_capture` lines 220-227:
`put_nowait`; on `queue.Full`, `get_nowait()` the oldest then `put_nowait`
the new record.  `queue.Queue(maxsize=0)` is unbounded. -/

def queuePush {α : Type} (cap : Nat) (q : List α) (x : α) : List α :=
  if cap = 0 then q ++ [x]
  else if q.length < cap then q ++ [x]
  else q.drop 1 ++ [x]

def queuePushAll {α : Type} (cap : Nat) (q : List α) (xs : List α) : List α :=
  xs.foldl (queuePush cap) q

/-- The last `n` elements of a list, in order. -/
def suffixN {α : Type} (n : Nat) (l : List α) : List α :=
  l.drop (l.length - n)

/-! ## `add_packets` (`feature_extraction.py` lines 42-48) -/

/-- One raw record handed to `add_packets`: the value under its
`'timestamp'` key (`Option.none` when the key is missing, which makes
`packet['timestamp']` raise KeyError) and its `'layers'` dict (the
`packet.get('layers', {})` default is `[]`). -/
structure RawRecord where
  timestampField : Option FieldVal
  layers : Layers
deriving DecidableEq

/-- `deque(maxlen=cap)` append: drops from the left when full. -/
def dequeAppend (cap : Nat) (q : List Packet) (p : Packet) : List Packet :=
  (q ++ [p]).drop (q.length + 1 - cap)

/-- The retained-history hard cap (`deque(maxlen=10000)`, line 33). -/
def BUFFER_CAP : Nat := 10000

/-- `add_packets` lines 42-48, parameterised by `parseTs`, the model of
`datetime.fromisoformat` (a stdlib function external to this repository):
a record's timestamp is well-formed iff `parseTs` succeeds.  Records are
appended one at a time; the first failure aborts the loop, keeping the
records already appended and never appending the remaining ones. -/
def add_packets (parseTs : FieldVal → Option Int) (buf : List Packet)
    (rs : List RawRecord) : List Packet × Option String :=
  match rs with
  | [] => (buf, Option.none)
  | r :: rest =>
    match r.timestampField with
    | Option.none => (buf, Option.some "KeyError")
    | Option.some v =>
      match parseTs v with
      | Option.none => (buf, Option.some "ValueError")
      | Option.some t =>
        add_packets parseTs (dequeAppend BUFFER_CAP buf ⟨t, r.layers⟩) rest

/-! ## Anomaly detector front end (`anomaly_detection.py`)

The underlying scikit-learn / keras model and the fitted scaler are external
collaborators; they enter the model as opaque per-row functions. -/

structure AnomalyDetector (Row : Type) where
  is_trained : Bool
  scale : Row → Row
  modelPredictRow : Row → Int
  modelScoreSamplesRow : Row → ℚ

/-- `predict` lines 74-101: untrained returns `np.ones(len(X))`; trained
applies the scaler then the model per row. -/
def predict {Row : Type} (d : AnomalyDetector Row) (X : List Row) : List Int :=
  if d.is_trained = false then List.replicate X.length 1
  else X.map (fun x => d.modelPredictRow (d.scale x))

/-- The raw batch scores of `predict_proba` line 119:
`-self.model.score_samples(X_scaled)`. -/
def rawScores {Row : Type} (d : AnomalyDetector Row) (X : List Row) : List ℚ :=
  X.map (fun x => -(d.modelScoreSamplesRow (d.scale x)))

/-- The `1e-8` of `predict_proba` line 128. -/
def eps : ℚ := 1 / 100000000

def listMinQ : List ℚ → ℚ
  | [] => 0
  | x :: xs => xs.foldl min x

def listMaxQ : List ℚ → ℚ
  | [] => 0
  | x :: xs => xs.foldl max x

/-- `predict_proba` line 128:
`(scores - scores.min()) / (scores.max() - scores.min() + 1e-8)`. -/
def normalizeScores (scores : List ℚ) : List ℚ :=
  scores.map
    (fun s => (s - listMinQ scores) / (listMaxQ scores - listMinQ scores + eps))

/-- `predict_proba` lines 103-130: untrained returns `np.zeros(len(X))`;
trained min-max normalizes the raw scores (`scores.min()` on an empty array
raises ValueError). -/
def predict_proba {Row : Type} (d : AnomalyDetector Row) (X : List Row) :
    Except String (List ℚ) :=
  if d.is_trained = false then Except.ok (List.replicate X.length 0)
  else if rawScores d X = [] then Except.error "ValueError"
  else Except.ok (normalizeScores (rawScores d X))

/-! ## Agent state machine (`fog_agent.py`, `traffic_capture.py`)

The simulated capture (the agent's default) and the agent's
running/capturing flags, with the log modelled as the list of emitted
messages. -/

structure FogAgentState where
  is_running : Bool
  is_capturing : Bool
  log : List String
deriving DecidableEq

/-- `SimulatedTrafficCapture.start_capture` lines 180-188: a second start is
a silent no-op. -/
def capture_start (a : FogAgentState) : FogAgentState :=
  if a.is_capturing then a
  else { a with is_capturing := true,
                log := a.log ++ ["Started simulated traffic capture"] }

/-- `SimulatedTrafficCapture.stop_capture` lines 190-193: unconditionally
clears the flag and logs. -/
def capture_stop (a : FogAgentState) : FogAgentState :=
  { a with is_capturing := false,
           log := a.log ++ ["Stopped simulated traffic capture"] }

/-- `FogAgent.start` lines 85-100. -/
def agent_start (a : FogAgentState) : FogAgentState :=
  if a.is_running then { a with log := a.log ++ ["Agent already running"] }
  else
    let a2 := capture_start { a with is_running := true }
    { a2 with log := a2.log ++ ["Fog Agent started"] }

/-- `FogAgent.stop` lines 102-106: no guard; always stops capture and logs. -/
def agent_stop (a : FogAgentState) : FogAgentState :=
  let a2 := capture_stop { a with is_running := false }
  { a2 with log := a2.log ++ ["Fog Agent stopped"] }

/-! ## Analysis-loop scoring step (`fog_agent.py` lines 126-141) -/

structure AnalysisState where
  detection_count : Nat
  normal_count : Nat
  alerts : List ℚ
deriving DecidableEq

/-- The alert threshold of `_analysis_loop` line 137. -/
def threshold : ℚ := 7 / 10

/-- `_analysis_loop` lines 126-141 for one iteration that reached the
scoring step: predict and score the single-row batch, then either emit an
AlertRecord and bump `detection_count`, or bump `normal_count`.  An
exception inside the cycle is caught by the loop (lines 146-148) and leaves
the counters untouched. -/
def analysisStep {Row : Type} (d : AnomalyDetector Row) (fv : Row)
    (st : AnalysisState) : AnalysisState :=
  match predict_proba d [fv] with
  | Except.error _ => st
  | Except.ok scores =>
    let prediction := predict d [fv]
    let is_anomaly := prediction.headD 1 = -1
    let anomaly_score := scores.headD 0
    if is_anomaly ∧ threshold < anomaly_score then
      { st with detection_count := st.detection_count + 1,
                alerts := st.alerts ++ [anomaly_score] }
    else { st with normal_count := st.normal_count + 1 }

/-! ## Concrete fixtures used by witnesses and counterexamples -/

/-- A record whose `ip.ip_src` field is present but an empty list. -/
def c1pkt : Packet :=
  ⟨0, [("ip", LayerVal.ldict
        [("ip_src", FieldVal.list []),
         ("ip_dst", FieldVal.scalar (PyScalar.pStr "10.0.0.2"))])]⟩

/-- A record whose `ip.ip_len` field is the one-element list `["100"]`. -/
def c2pkt : Packet :=
  ⟨0, [("ip", LayerVal.ldict [("ip_len", FieldVal.list [PyScalar.pStr "100"])])]⟩

/-- The same record with the scalar field value `"100"` instead. -/
def c2pktScalar : Packet :=
  ⟨0, [("ip", LayerVal.ldict [("ip_len", FieldVal.scalar (PyScalar.pStr "100"))])]⟩

/-- A record carrying only a `tcp` layer. -/
def c4pkt : Packet := ⟨0, [("tcp", LayerVal.ldict [])]⟩

/-- An untrained detector over rational rows. -/
def wD6 : AnomalyDetector ℚ :=
  { is_trained := false, scale := id,
    modelPredictRow := fun _ => 1, modelScoreSamplesRow := fun _ => 0 }

/-- A trained detector over rational rows whose raw model score is the row
itself. -/
def wD7 : AnomalyDetector ℚ :=
  { is_trained := true, scale := id,
    modelPredictRow := fun _ => -1, modelScoreSamplesRow := fun x => x }

/-- A freshly started agent (running, capturing, log cleared). -/
def wAgent : FogAgentState := ⟨true, true, []⟩

/-- A timestamp parser instance for witnesses: integer field values parse to
themselves, everything else fails. -/
def wParseTs : FieldVal → Option Int :=
  fun v => match v with
  | FieldVal.scalar (PyScalar.pInt n) => Option.some n
  | _ => Option.none

def wGood1 : RawRecord := ⟨Option.some (FieldVal.scalar (PyScalar.pInt 1)), []⟩

/-- A record with no `'timestamp'` key. -/
def wBad : RawRecord := ⟨Option.none, []⟩

def wGood2 : RawRecord := ⟨Option.some (FieldVal.scalar (PyScalar.pInt 2)), []⟩

end FogAI

namespace FogAI

/-! ## Helper lemmas -/

theorem foldl_min_le_init (xs : List ℚ) : ∀ a : ℚ, xs.foldl min a ≤ a := by
  induction xs with
  | nil => intro a; simp
  | cons x xs ih =>
    intro a
    calc (x :: xs).foldl min a = xs.foldl min (min a x) := rfl
      _ ≤ min a x := ih (min a x)
      _ ≤ a := min_le_left a x

theorem foldl_min_le_mem (xs : List ℚ) :
    ∀ (a s : ℚ), s ∈ xs → xs.foldl min a ≤ s := by
  induction xs with
  | nil => intro a s hs; cases hs
  | cons x xs ih =>
    intro a s hs
    rcases List.mem_cons.mp hs with h | h
    · subst h
      calc (s :: xs).foldl min a = xs.foldl min (min a s) := rfl
        _ ≤ min a s := foldl_min_le_init xs (min a s)
        _ ≤ s := min_le_right a s
    · exact ih (min a x) s h

theorem init_le_foldl_max (xs : List ℚ) : ∀ a : ℚ, a ≤ xs.foldl max a := by
  induction xs with
  | nil => intro a; simp
  | cons x xs ih =>
    intro a
    calc a ≤ max a x := le_max_left a x
      _ ≤ xs.foldl max (max a x) := ih (max a x)
      _ = (x :: xs).foldl max a := rfl

theorem mem_le_foldl_max (xs : List ℚ) :
    ∀ (a s : ℚ), s ∈ xs → s ≤ xs.foldl max a := by
  induction xs with
  | nil => intro a s hs; cases hs
  | cons x xs ih =>
    intro a s hs
    rcases List.mem_cons.mp hs with h | h
    · subst h
      calc s ≤ max a s := le_max_right a s
        _ ≤ xs.foldl max (max a s) := init_le_foldl_max xs (max a s)
        _ = (s :: xs).foldl max a := rfl
    · exact ih (max a x) s h

theorem listMinQ_le {l : List ℚ} {s : ℚ} (hs : s ∈ l) : listMinQ l ≤ s := by
  cases l with
  | nil => cases hs
  | cons x xs =>
    rcases List.mem_cons.mp hs with h | h
    · subst h; exact foldl_min_le_init xs s
    · exact foldl_min_le_mem xs x s h

theorem le_listMaxQ {l : List ℚ} {s : ℚ} (hs : s ∈ l) : s ≤ listMaxQ l := by
  cases l with
  | nil => cases hs
  | cons x xs =>
    rcases List.mem_cons.mp hs with h | h
    · subst h; exact init_le_foldl_max xs s
    · exact mem_le_foldl_max xs x s h

theorem foldl_min_mem (ys : List ℚ) : ∀ x : ℚ, ys.foldl min x ∈ x :: ys := by
  induction ys with
  | nil => intro x; simp
  | cons y ys ih =>
    intro x
    have h := ih (min x y)
    rcases List.mem_cons.mp h with h | h
    · rcases min_choice x y with hm | hm
      · exact List.mem_cons.mpr (Or.inl (h.trans hm))
      · exact List.mem_cons.mpr (Or.inr (List.mem_cons.mpr (Or.inl (h.trans hm))))
    · exact List.mem_cons.mpr (Or.inr (List.mem_cons.mpr (Or.inr h)))

theorem listMinQ_mem {l : List ℚ} (h : l ≠ []) : listMinQ l ∈ l := by
  cases l with
  | nil => exact absurd rfl h
  | cons x xs => exact foldl_min_mem xs x

theorem listMinQ_le_listMaxQ {l : List ℚ} (h : l ≠ []) : listMinQ l ≤ listMaxQ l := by
  cases l with
  | nil => exact absurd rfl h
  | cons x xs =>
    exact le_trans (listMinQ_le (List.mem_cons_self x xs))
      (le_listMaxQ (List.mem_cons_self x xs))

theorem eps_pos : (0 : ℚ) < eps := by norm_num [eps]

theorem protoCount_cons (p : Packet) (ps : List Packet) (pr : Proto) :
    protoCount (p :: ps) pr = (if classify p = pr then 1 else 0) + protoCount ps pr := by
  by_cases h : classify p = pr <;>
    simp [protoCount, List.filter_cons, h] <;> omega

theorem totalProto_eq_length (ps : List Packet) : totalProto ps = ps.length := by
  induction ps with
  | nil => rfl
  | cons p ps ih =>
    have h := fun pr => protoCount_cons p ps pr
    rcases hc : classify p <;>
      simp [totalProto, h, hc] <;>
      simp [totalProto] at ih <;> omega

/-! ## Claim theorems -/

/-- Claim C1 (code bug): `extract()` does raise on a record whose `ip_src`
field is present but an empty sequence — the `[0]` in
`ip_layer.get('ip_src', [''])[0]` indexes the present empty list, so the
IndexError escapes and fails the whole call, contrary to the never-raises
contract. -/
theorem extract_raises_on_empty_list_field :
    windowPackets [c1pkt] 0 60 = [c1pkt] ∧
    extract_features [c1pkt] 0 60 = Except.error "IndexError" := by decide

/-- Claim C2 (code bug): a one-element sequence value of the IP length field
contributes 0 to `total_bytes` and nothing to the packet-size samples,
because the list branch of lines 100-101 (and 241-242) reassigns `ip_len`
but never adds it: the claimed contribution of the element's value (here
`int("100") = 100`, as the scalar variant shows) is dropped. -/
theorem totalBytes_drops_one_element_list :
    totalBytes [c2pkt] = 0 ∧
    packetSizes [c2pkt] = [] ∧
    pyIntOfScalar (PyScalar.pStr "100") = Option.some 100 ∧
    (extract_features [c2pkt] 0 60).map (fun m => dictGet m "total_bytes") =
      Except.ok (Option.some (FeatVal.q 0)) ∧
    totalBytes [c2pktScalar] = 100 ∧
    packetSizes [c2pktScalar] = [100] := by decide

/-- Claim C3: on an empty buffer, or when no retained record lies in the
window, `extract()` returns the default feature map — all 21 defined names
present with value 0 — and the ordered feature vector is 21 zeros. -/
theorem extract_empty_window_default (buf : List Packet) (now win : Int)
    (h : buf = [] ∨ ∀ p ∈ buf, p.capturedAt < now - win) :
    extract_features buf now win = Except.ok defaultFeatures ∧
    defaultFeatures.map Prod.fst = featureOrder ∧
    featureOrder.length = 21 ∧
    (∀ kv ∈ defaultFeatures, kv.2 = FeatVal.q 0) ∧
    get_feature_vector buf now win = Except.ok (List.replicate 21 (FeatVal.q 0)) := by
  have hext : extract_features buf now win = Except.ok defaultFeatures := by
    rcases h with h | h
    · simp [extract_features, h]
    · by_cases hb : buf = []
      · simp [extract_features, hb]
      · have hw : windowPackets buf now win = [] := by
          simp only [windowPackets, List.filter_eq_nil_iff, decide_eq_true_eq]
          intro p hp
          exact not_le.mpr (h p hp)
        simp [extract_features, hb, hw]
  refine ⟨hext, by decide, by decide, by decide, ?_⟩
  rw [get_feature_vector, hext]
  decide

/-- Witness for C3 at the empty buffer. -/
theorem extract_empty_window_default_witness :
    (([] : List Packet) = [] ∨ ∀ p ∈ ([] : List Packet), p.capturedAt < 0 - 60) ∧
    (extract_features [] 0 60 = Except.ok defaultFeatures ∧
     defaultFeatures.map Prod.fst = featureOrder ∧
     featureOrder.length = 21 ∧
     (∀ kv ∈ defaultFeatures, kv.2 = FeatVal.q 0) ∧
     get_feature_vector [] 0 60 = Except.ok (List.replicate 21 (FeatVal.q 0))) :=
  ⟨Or.inl rfl, extract_empty_window_default [] 0 60 (Or.inl rfl)⟩

/-! C5: bounded drop-oldest queue -/

theorem queuePush_suffixN {α : Type} (cap : Nat) (hcap : 0 < cap) (ys : List α)
    (x : α) : queuePush cap (suffixN cap ys) x = suffixN cap (ys ++ [x]) := by
  have hne : cap ≠ 0 := Nat.pos_iff_ne_zero.mp hcap
  by_cases h : ys.length < cap
  · have h0 : ys.length - cap = 0 := by omega
    have h1 : ys.length + 1 - cap = 0 := by omega
    have e1 : suffixN cap ys = ys := by simp [suffixN, h0]
    have e2 : suffixN cap (ys ++ [x]) = ys ++ [x] := by
      rw [suffixN]
      have hz : (ys ++ [x]).length - cap = 0 := by
        simp
        omega
      rw [hz, List.drop_zero]
    rw [e1, e2]
    simp [queuePush, hne, h]
  · have hcle : cap ≤ ys.length := Nat.le_of_not_lt h
    have hlen : (suffixN cap ys).length = cap := by
      simp [suffixN]
      omega
    have hnotlt : ¬ (suffixN cap ys).length < cap := by omega
    have lhs_eq : queuePush cap (suffixN cap ys) x = (suffixN cap ys).drop 1 ++ [x] := by
      simp [queuePush, hne, hnotlt]
    have hle : ys.length + 1 - cap ≤ ys.length := by omega
    have rhs_eq : suffixN cap (ys ++ [x]) = ys.drop (ys.length + 1 - cap) ++ [x] := by
      have hl : (ys ++ [x]).length - cap = ys.length + 1 - cap := by simp
      rw [suffixN, hl, List.drop_append_of_le_length hle]
    rw [lhs_eq, rhs_eq, suffixN, List.drop_drop]
    have harith : ys.length - cap + 1 = ys.length + 1 - cap := by omega
    rw [harith]

theorem queuePushAll_suffixN {α : Type} (cap : Nat) (hcap : 0 < cap) :
    ∀ (xs ys : List α), queuePushAll cap (suffixN cap ys) xs = suffixN cap (ys ++ xs) := by
  intro xs
  induction xs with
  | nil => intro ys; simp [queuePushAll]
  | cons x xs ih =>
    intro ys
    calc queuePushAll cap (suffixN cap ys) (x :: xs)
        = queuePushAll cap (queuePush cap (suffixN cap ys) x) xs := rfl
      _ = queuePushAll cap (suffixN cap (ys ++ [x])) xs := by
          rw [queuePush_suffixN cap hcap ys x]
      _ = suffixN cap ((ys ++ [x]) ++ xs) := ih (ys ++ [x])
      _ = suffixN cap (ys ++ (x :: xs)) := by simp

/-- Claim C5: pushing any sequence of records through the capacity-`cap`
capture queue never exceeds the capacity, every push succeeds (the eviction
absorbs overflow), and the queue always holds exactly the most recently
pushed records in arrival order (the trailing `cap`-suffix of the pushes). -/
theorem queue_push_bounded_drop_oldest {α : Type} (cap : Nat) (hcap : 0 < cap)
    (xs : List α) :
    (queuePushAll cap [] xs).length ≤ cap ∧
    queuePushAll cap [] xs = xs.drop (xs.length - cap) := by
  have h0 : suffixN cap ([] : List α) = [] := by simp [suffixN]
  have h := queuePushAll_suffixN cap hcap xs []
  rw [h0] at h
  simp only [List.nil_append] at h
  constructor
  · rw [h, suffixN]
    simp only [List.length_drop]
    omega
  · rw [h, suffixN]

/-- Witness for C5: capacity 2, three pushes. -/
theorem queue_push_bounded_drop_oldest_witness :
    0 < 2 ∧
    ((queuePushAll 2 ([] : List Nat) [1, 2, 3]).length ≤ 2 ∧
     queuePushAll 2 ([] : List Nat) [1, 2, 3] = [1, 2, 3].drop ([1, 2, 3].length - 2)) :=
  ⟨by decide, queue_push_bounded_drop_oldest 2 (by decide) [1, 2, 3]⟩

/-- Claim C6: on an untrained model, `predict` returns the all-normal vector
(1 for every row) and `predict_proba` returns the all-zero score vector,
and neither raises. -/
theorem untrained_predict_defaults {Row : Type} (d : AnomalyDetector Row)
    (X : List Row) (h : d.is_trained = false) :
    predict d X = List.replicate X.length 1 ∧
    predict_proba d X = Except.ok (List.replicate X.length 0) := by
  constructor <;> simp [predict, predict_proba, h]

/-- Witness for C6 at a concrete untrained detector and one-row batch. -/
theorem untrained_predict_defaults_witness :
    wD6.is_trained = false ∧
    (predict wD6 [(3 : ℚ)] = List.replicate 1 1 ∧
     predict_proba wD6 [(3 : ℚ)] = Except.ok (List.replicate 1 0)) :=
  ⟨rfl, untrained_predict_defaults wD6 [(3 : ℚ)] rfl⟩

/-- Claim C7: on any non-empty batch, `predict_proba` succeeds and every
returned score lies in `[0, 1]`; the raw scores are min-max normalized with
`1e-8` added to the denominator, so a batch of all-equal raw scores yields
the all-zero score vector instead of a division by zero. -/
theorem predict_proba_scores_in_unit_interval {Row : Type}
    (d : AnomalyDetector Row) (X : List Row) (hX : X ≠ []) :
    ∃ res, predict_proba d X = Except.ok res ∧ res.length = X.length ∧
      (∀ r ∈ res, 0 ≤ r ∧ r ≤ 1) ∧
      ((∀ a ∈ rawScores d X, ∀ b ∈ rawScores d X, a = b) →
        res = List.replicate X.length 0) := by
  by_cases ht : d.is_trained = false
  · refine ⟨List.replicate X.length 0, by simp [predict_proba, ht], by simp, ?_, ?_⟩
    · intro r hr
      have : r = 0 := List.eq_of_mem_replicate hr
      subst this
      exact ⟨le_refl 0, by norm_num⟩
    · intro _; rfl
  · simp only [Bool.not_eq_false] at ht
    have hraw : rawScores d X ≠ [] := by
      simp [rawScores]
      exact hX
    have hpp : predict_proba d X = Except.ok (normalizeScores (rawScores d X)) := by
      simp [predict_proba, ht, hraw]
    have hlen : (normalizeScores (rawScores d X)).length = X.length := by
      simp [normalizeScores, rawScores]
    have hden : 0 < listMaxQ (rawScores d X) - listMinQ (rawScores d X) + eps := by
      have := listMinQ_le_listMaxQ hraw
      have := eps_pos
      linarith
    refine ⟨normalizeScores (rawScores d X), hpp, hlen, ?_, ?_⟩
    · intro r hr
      obtain ⟨s, hs, hrs⟩ := List.mem_map.mp hr
      subst hrs
      constructor
      · exact div_nonneg (by linarith [listMinQ_le hs]) (le_of_lt hden)
      · rw [div_le_one hden]
        have := le_listMaxQ hs
        have := eps_pos
        linarith
    · intro hall
      have hzero : ∀ r ∈ normalizeScores (rawScores d X), r = 0 := by
        intro r hr
        obtain ⟨s, hs, hrs⟩ := List.mem_map.mp hr
        have hmin : s = listMinQ (rawScores d X) :=
          hall s hs (listMinQ (rawScores d X)) (listMinQ_mem hraw)
        rw [← hrs, ← hmin, sub_self, zero_div]
      have := List.eq_replicate_length.mpr hzero
      rw [hlen] at this
      exact this

/-- Witness for C7 at a concrete trained detector and a two-row batch. -/
theorem predict_proba_scores_in_unit_interval_witness :
    ([(1 : ℚ), 2] ≠ []) ∧
    (∃ res, predict_proba wD7 [(1 : ℚ), 2] = Except.ok res ∧
      res.length = [(1 : ℚ), 2].length ∧
      (∀ r ∈ res, 0 ≤ r ∧ r ≤ 1) ∧
      ((∀ a ∈ rawScores wD7 [(1 : ℚ), 2], ∀ b ∈ rawScores wD7 [(1 : ℚ), 2], a = b) →
        res = List.replicate [(1 : ℚ), 2].length 0)) :=
  ⟨by simp, predict_proba_scores_in_unit_interval wD7 [(1 : ℚ), 2] (by simp)⟩

/-- Claim C9: for any detector state, `predict_proba` on a single-row batch
is exactly `[0]` — min-max normalization maps the lone raw score to 0 — so
one agent analysis iteration (which always scores a one-row batch) can never
pass the `anomaly_score > 0.7` gate: it appends no AlertRecord, leaves
`detection_count` unchanged, and increments `normal_count`. -/
theorem single_row_score_zero_no_alert {Row : Type} (d : AnomalyDetector Row)
    (x fv : Row) (st : AnalysisState) :
    predict_proba d [x] = Except.ok [0] ∧
    (analysisStep d fv st).alerts = st.alerts ∧
    (analysisStep d fv st).detection_count = st.detection_count ∧
    (analysisStep d fv st).normal_count = st.normal_count + 1 := by
  have hsingle : ∀ y : Row, predict_proba d [y] = Except.ok [0] := by
    intro y
    by_cases ht : d.is_trained = false
    · simp [predict_proba, ht]
    · simp only [Bool.not_eq_false] at ht
      simp [predict_proba, ht, rawScores, normalizeScores, listMinQ, listMaxQ]
  have hstep : analysisStep d fv st = { st with normal_count := st.normal_count + 1 } := by
    rw [analysisStep, hsingle fv]
    have hcond : ¬ ((predict d [fv]).headD 1 = -1 ∧
        threshold < (([0] : List ℚ)).headD 0) := by
      intro hc
      have := hc.2
      norm_num [threshold] at this
    simp [hcond]
    intro _
    norm_num [threshold]
  exact ⟨hsingle x, by rw [hstep], by rw [hstep], by rw [hstep]⟩

/-- Counterexample for claim C8 as stated: after `start`, calling `stop`
twice appends the stop log entries a second time, so the log does contain
duplicate entries. -/
theorem stop_twice_duplicates_log :
    List.count "Fog Agent stopped"
      (agent_stop (agent_stop (agent_start ⟨false, false, []⟩))).log = 2 ∧
    ¬ (agent_stop (agent_stop (agent_start ⟨false, false, []⟩))).log.Nodup := by
  decide

/-- Claim C8 (amended): `start()` on an already-running agent only appends
the warning entry (no state change, no second capture launch); `stop()`
twice never errors and leaves the agent stopped and not capturing, but the
second call appends the capture-stop and agent-stop log entries again. -/
theorem start_stop_idempotence_amended (a : FogAgentState) :
    (a.is_running = true →
      agent_start a = { a with log := a.log ++ ["Agent already running"] }) ∧
    (agent_stop (agent_stop a)).is_running = false ∧
    (agent_stop (agent_stop a)).is_capturing = false ∧
    (agent_stop (agent_stop a)).log =
      (agent_stop a).log ++ ["Stopped simulated traffic capture", "Fog Agent stopped"] := by
    refine ⟨?_, rfl, rfl, ?_⟩
    · intro h
      simp [agent_start, h]
    · simp [agent_stop, capture_stop]

/-- Witness for amended C8 at a running, capturing agent. -/
theorem start_stop_idempotence_amended_witness :
    (agent_start wAgent = { wAgent with log := wAgent.log ++ ["Agent already running"] }) ∧
    (agent_stop (agent_stop wAgent)).is_running = false ∧
    (agent_stop (agent_stop wAgent)).is_capturing = false ∧
    (agent_stop (agent_stop wAgent)).log =
      (agent_stop wAgent).log ++ ["Stopped simulated traffic capture", "Fog Agent stopped"] :=
  ⟨(start_stop_idempotence_amended wAgent).1 rfl,
   (start_stop_idempotence_amended wAgent).2.1,
   (start_stop_idempotence_amended wAgent).2.2.1,
   (start_stop_idempotence_amended wAgent).2.2.2⟩

/-- Claim C10: `add_packets` does raise for some inputs — a record with no
`'timestamp'` key (KeyError) or an unparseable timestamp (parse error)
aborts the call; the well-formed records before it are already appended,
and none of the remaining records is appended (the buffer equals the result
of ingesting the prefix alone). -/
theorem add_packets_fails_on_bad_timestamp (parseTs : FieldVal → Option Int)
    (buf : List Packet) (pre : List RawRecord) (r : RawRecord)
    (post : List RawRecord)
    (hpre : ∀ q ∈ pre, ∃ v t, q.timestampField = Option.some v ∧
      parseTs v = Option.some t)
    (hr : r.timestampField = Option.none ∨
      ∃ v, r.timestampField = Option.some v ∧ parseTs v = Option.none) :
    (add_packets parseTs buf (pre ++ r :: post)).2.isSome = true ∧
    (add_packets parseTs buf (pre ++ r :: post)).1 =
      (add_packets parseTs buf pre).1 := by
  revert hpre
  induction pre generalizing buf with
  | nil =>
    intro _
    rcases hr with h | ⟨v, hv, hp⟩
    · simp [add_packets, h]
    · simp [add_packets, hv, hp]
  | cons q pre ih =>
    intro hpre
    obtain ⟨v, t, hv, htv⟩ := hpre q (List.mem_cons_self q pre)
    have hrest : ∀ q' ∈ pre, ∃ v t, q'.timestampField = Option.some v ∧
        parseTs v = Option.some t :=
      fun q' hq' => hpre q' (List.mem_cons_of_mem q hq')
    simp only [List.cons_append, add_packets, hv, htv]
    exact ih (dequeAppend BUFFER_CAP buf ⟨t, q.layers⟩) hrest

/-- Witness for C10: one good record, then one without a timestamp key,
then one more good record. -/
theorem add_packets_fails_on_bad_timestamp_witness :
    (∀ q ∈ [wGood1], ∃ v t, q.timestampField = Option.some v ∧
      wParseTs v = Option.some t) ∧
    (wBad.timestampField = Option.none ∨
      ∃ v, wBad.timestampField = Option.some v ∧ wParseTs v = Option.none) ∧
    ((add_packets wParseTs [] ([wGood1] ++ wBad :: [wGood2])).2.isSome = true ∧
     (add_packets wParseTs [] ([wGood1] ++ wBad :: [wGood2])).1 =
       (add_packets wParseTs [] [wGood1]).1) :=
  ⟨fun q hq => by
      rw [List.mem_singleton] at hq
      subst hq
      exact ⟨FieldVal.scalar (PyScalar.pInt 1), 1, rfl, rfl⟩,
   Or.inl rfl,
   add_packets_fails_on_bad_timestamp wParseTs [] [wGood1] wBad [wGood2]
     (fun q hq => by
        rw [List.mem_singleton] at hq
        subst hq
        exact ⟨FieldVal.scalar (PyScalar.pInt 1), 1, rfl, rfl⟩)
     (Or.inl rfl)⟩

/-- The ratio entries `extract_features` emits when the classified total is
positive. -/
theorem ratioFeatures_of_pos (ps : List Packet) (h : 0 < totalProto ps) :
    ratioFeatures ps =
      [("tcp_ratio", FeatVal.q ((protoCount ps Proto.tcp : ℚ) / (totalProto ps : ℚ))),
       ("udp_ratio", FeatVal.q ((protoCount ps Proto.udp : ℚ) / (totalProto ps : ℚ))),
       ("icmp_ratio", FeatVal.q ((protoCount ps Proto.icmp : ℚ) / (totalProto ps : ℚ))),
       ("other_ratio", FeatVal.q ((protoCount ps Proto.other : ℚ) / (totalProto ps : ℚ)))] := by
  simp [ratioFeatures, h]

/-- Shape of a successful `extract_features` call on a non-empty window. -/
theorem extract_ok_decomp (buf : List Packet) (now win : Int)
    (hsel : windowPackets buf now win ≠ [])
    (hok : (extract_features buf now win).isOk = true) :
    ∃ ff cf,
      flowFeatures (windowPackets buf now win) = Except.ok ff ∧
      connectionFeatures (windowPackets buf now win) = Except.ok cf ∧
      extract_features buf now win = Except.ok
        (basicFeatures (windowPackets buf now win) win ++
         ratioFeatures (windowPackets buf now win) ++ ff ++ cf ++
         sizeFeatures (windowPackets buf now win)) := by
  have hbuf : buf ≠ [] := fun h => hsel (by simp [windowPackets, h])
  by_cases hwin : win = 0
  · exfalso
    rw [hwin] at hok
    simp only [extract_features] at hok
    rw [if_neg hbuf] at hok
    rw [hwin] at hsel
    rw [if_neg hsel] at hok
    exact Bool.false_ne_true hok
  · have hunfold : extract_features buf now win =
        (do
          let ff ← flowFeatures (windowPackets buf now win)
          let cf ← connectionFeatures (windowPackets buf now win)
          pure (basicFeatures (windowPackets buf now win) win ++
            ratioFeatures (windowPackets buf now win) ++ ff ++ cf ++
            sizeFeatures (windowPackets buf now win))) := by
      simp only [extract_features]
      rw [if_neg hbuf, if_neg hsel, if_neg hwin]
    cases hff : flowFeatures (windowPackets buf now win) with
    | error e =>
      exfalso
      rw [hunfold, hff] at hok
      exact Bool.false_ne_true hok
    | ok ff =>
      cases hcf : connectionFeatures (windowPackets buf now win) with
      | error e =>
        exfalso
        rw [hunfold, hff, hcf] at hok
        exact Bool.false_ne_true hok
      | ok cf =>
        refine ⟨ff, cf, rfl, rfl, ?_⟩
        rw [hunfold, hff, hcf]
        rfl

/-- Claim C4: on a non-empty window, every selected record falls in exactly
one of the four protocol classes (the four class counts partition the
window), the returned ratio features are the class counts divided by the
classified total, and the four ratios sum to exactly 1. -/
theorem protocol_ratios_sum_to_one (buf : List Packet) (now win : Int)
    (hsel : windowPackets buf now win ≠ [])
    (hok : (extract_features buf now win).isOk = true) :
    totalProto (windowPackets buf now win) = (windowPackets buf now win).length ∧
    (extract_features buf now win).map (fun m => dictGet m "tcp_ratio") =
      Except.ok (Option.some (FeatVal.q
        ((protoCount (windowPackets buf now win) Proto.tcp : ℚ) /
         (totalProto (windowPackets buf now win) : ℚ)))) ∧
    (extract_features buf now win).map (fun m => dictGet m "udp_ratio") =
      Except.ok (Option.some (FeatVal.q
        ((protoCount (windowPackets buf now win) Proto.udp : ℚ) /
         (totalProto (windowPackets buf now win) : ℚ)))) ∧
    (extract_features buf now win).map (fun m => dictGet m "icmp_ratio") =
      Except.ok (Option.some (FeatVal.q
        ((protoCount (windowPackets buf now win) Proto.icmp : ℚ) /
         (totalProto (windowPackets buf now win) : ℚ)))) ∧
    (extract_features buf now win).map (fun m => dictGet m "other_ratio") =
      Except.ok (Option.some (FeatVal.q
        ((protoCount (windowPackets buf now win) Proto.other : ℚ) /
         (totalProto (windowPackets buf now win) : ℚ)))) ∧
    (protoCount (windowPackets buf now win) Proto.tcp : ℚ) /
        (totalProto (windowPackets buf now win) : ℚ) +
      (protoCount (windowPackets buf now win) Proto.udp : ℚ) /
        (totalProto (windowPackets buf now win) : ℚ) +
      (protoCount (windowPackets buf now win) Proto.icmp : ℚ) /
        (totalProto (windowPackets buf now win) : ℚ) +
      (protoCount (windowPackets buf now win) Proto.other : ℚ) /
        (totalProto (windowPackets buf now win) : ℚ) = 1 := by
  obtain ⟨ff, cf, hff, hcf, hext⟩ := extract_ok_decomp buf now win hsel hok
  have hpart := totalProto_eq_length (windowPackets buf now win)
  have hT : 0 < totalProto (windowPackets buf now win) := by
    rw [hpart]
    exact List.length_pos.mpr hsel
  refine ⟨hpart, ?_, ?_, ?_, ?_, ?_⟩
  · rw [hext]
    simp [Except.map, ratioFeatures_of_pos _ hT, basicFeatures, dictGet]
  · rw [hext]
    simp [Except.map, ratioFeatures_of_pos _ hT, basicFeatures, dictGet]
  · rw [hext]
    simp [Except.map, ratioFeatures_of_pos _ hT, basicFeatures, dictGet]
  · rw [hext]
    simp [Except.map, ratioFeatures_of_pos _ hT, basicFeatures, dictGet]
  · have hTQ : ((totalProto (windowPackets buf now win) : ℚ)) ≠ 0 := by
      exact_mod_cast Nat.pos_iff_ne_zero.mp hT
    have hnum : (protoCount (windowPackets buf now win) Proto.tcp : ℚ) +
        (protoCount (windowPackets buf now win) Proto.udp : ℚ) +
        (protoCount (windowPackets buf now win) Proto.icmp : ℚ) +
        (protoCount (windowPackets buf now win) Proto.other : ℚ) =
        (totalProto (windowPackets buf now win) : ℚ) := by
      rw [totalProto]
      push_cast
      ring
    rw [div_add_div_same, div_add_div_same, div_add_div_same, hnum]
    exact div_self hTQ

/-- Witness for C4 at a one-record tcp-only window. -/
theorem protocol_ratios_sum_to_one_witness :
    (windowPackets [c4pkt] 0 60 ≠ []) ∧
    ((extract_features [c4pkt] 0 60).isOk = true) ∧
    (totalProto (windowPackets [c4pkt] 0 60) = (windowPackets [c4pkt] 0 60).length ∧
     (extract_features [c4pkt] 0 60).map (fun m => dictGet m "tcp_ratio") =
       Except.ok (Option.some (FeatVal.q
         ((protoCount (windowPackets [c4pkt] 0 60) Proto.tcp : ℚ) /
          (totalProto (windowPackets [c4pkt] 0 60) : ℚ)))) ∧
     (extract_features [c4pkt] 0 60).map (fun m => dictGet m "udp_ratio") =
       Except.ok (Option.some (FeatVal.q
         ((protoCount (windowPackets [c4pkt] 0 60) Proto.udp : ℚ) /
          (totalProto (windowPackets [c4pkt] 0 60) : ℚ)))) ∧
     (extract_features [c4pkt] 0 60).map (fun m => dictGet m "icmp_ratio") =
       Except.ok (Option.some (FeatVal.q
         ((protoCount (windowPackets [c4pkt] 0 60) Proto.icmp : ℚ) /
          (totalProto (windowPackets [c4pkt] 0 60) : ℚ)))) ∧
     (extract_features [c4pkt] 0 60).map (fun m => dictGet m "other_ratio") =
       Except.ok (Option.some (FeatVal.q
         ((protoCount (windowPackets [c4pkt] 0 60) Proto.other : ℚ) /
          (totalProto (windowPackets [c4pkt] 0 60) : ℚ)))) ∧
     (protoCount (windowPackets [c4pkt] 0 60) Proto.tcp : ℚ) /
         (totalProto (windowPackets [c4pkt] 0 60) : ℚ) +
       (protoCount (windowPackets [c4pkt] 0 60) Proto.udp : ℚ) /
         (totalProto (windowPackets [c4pkt] 0 60) : ℚ) +
       (protoCount (windowPackets [c4pkt] 0 60) Proto.icmp : ℚ) /
         (totalProto (windowPackets [c4pkt] 0 60) : ℚ) +
       (protoCount (windowPackets [c4pkt] 0 60) Proto.other : ℚ) /
         (totalProto (windowPackets [c4pkt] 0 60) : ℚ) = 1) :=
  ⟨by decide, by decide, protocol_ratios_sum_to_one [c4pkt] 0 60 (by decide) (by decide)⟩

end FogAI
